import Mathlib

/-!
Shallow embedding of the termbg library (src/lib.rs): terminal family
detection, the COLORFGBG fallback, the X11 color decoder, the timed
byte-readers of the xterm probes, and the raw-mode state threading of
`from_xterm` and `xterm_latency`.

Machine integers (`u8`, `u16`) are modelled as `Nat`; wherever the Rust
code can overflow or truncate, the model applies the corresponding bound
or `% 2 ^ w` explicitly. Fallible Rust code returning `Result` is
modelled with `Except` (or `POutcome` where a checked-arithmetic abort
is also possible). Real time is modelled by tagging each byte of the
simulated input stream with the delay, in abstract ticks, between the
issuing of its read and its arrival.
-/

namespace Termbg

/-- The `Terminal` enum of src/lib.rs. -/
inductive Terminal where
  | Screen
  | Tmux
  | XtermCompatible
  | Windows
  | Emacs
deriving DecidableEq

/-- The `Rgb` struct: 16-bit channels, modelled as `Nat`. -/
structure Rgb where
  r : Nat
  g : Nat
  b : Nat
deriving DecidableEq

/-- The `Theme` enum. -/
inductive Theme where
  | Light
  | Dark
deriving DecidableEq

/-- The `Error` enum of src/lib.rs. `IoError` collapses the wrapped
`io::Error` payload, which the claims never inspect. -/
inductive Error where
  | IoError
  | Parse (s : String)
  | Unsupported
  | Timeout
deriving DecidableEq

/-- Outcome of a computation that can also abort with a checked-arithmetic
overflow (the debug-build semantics of Rust integer overflow, which
panics instead of returning a value). -/
inductive POutcome (α : Type) where
  | ok (a : α)
  | err (e : Error)
  | ovfl
deriving DecidableEq

/-- Value of one hexadecimal digit, as in Rust `char::to_digit(16)`:
`0`–`9`, `a`–`f` and `A`–`F` by code point. -/
def hexDigitVal (c : Char) : Option Nat :=
  if 48 ≤ c.toNat ∧ c.toNat ≤ 57 then some (c.toNat - 48)
  else if 97 ≤ c.toNat ∧ c.toNat ≤ 102 then some (c.toNat - 97 + 10)
  else if 65 ≤ c.toNat ∧ c.toNat ≤ 70 then some (c.toNat - 65 + 10)
  else none

/-- Digit-by-digit accumulation of `u16::from_str_radix(s, 16)`: each step
checks the running value against the `u16` bound, as the checked
multiply/add in Rust's `from_str_radix` does. -/
def parseRadixU16 : List Char → Nat → Option Nat
  | [], acc => some acc
  | c :: cs, acc =>
    match hexDigitVal c with
    | none => none
    | some d =>
      if acc * 16 + d ≤ 65535 then parseRadixU16 cs (acc * 16 + d) else none

/-- Model of `u16::from_str_radix(s, 16)`: an optional leading `+` sign
followed by one or more hex digits, rejecting the empty digit string and
any value exceeding `u16`. (A leading `-` is rejected for unsigned types,
which the catch-all digit branch handles, `-` not being a hex digit.) -/
def fromStrRadixChars16 : List Char → Option Nat
  | [] => none
  | c :: cs =>
    if c = '+' then
      match cs with
      | [] => none
      | _ => parseRadixU16 cs 0
    else parseRadixU16 (c :: cs) 0

/-- String-level wrapper for `fromStrRadixChars16`. -/
def fromStrRadix16 (s : String) : Option Nat :=
  fromStrRadixChars16 s.toList

/-- Structural model of Rust `str::split` on a one-character separator:
always at least one (possibly empty) piece, one extra piece per
separator occurrence. (`String.splitOn` of the library agrees but is
defined by well-founded recursion, which blocks kernel evaluation.) -/
def splitOnChar (sep : Char) : List Char → List (List Char)
  | [] => [[]]
  | c :: cs =>
    let r := splitOnChar sep cs
    if c = sep then [] :: r
    else
      match r with
      | [] => [[c]]
      | h :: t => (c :: h) :: t

/-- Structural model of `str::starts_with` on string slices:
`startsWithChars p s` holds when `p` is an initial segment of `s`. -/
def startsWithChars : List Char → List Char → Bool
  | [], _ => true
  | _ :: _, [] => false
  | p :: ps, c :: cs => p == c && startsWithChars ps cs

/-- The inner `decode_hex` of `decode_x11_color`:
`ret << ((4 - len) * 4)` on `u16`. For `len ≤ 4` the shift is an exact
multiplication truncated to 16 bits; for `len > 4` (reachable only with
zero-padded components, since larger values already fail the `u16`
parse) the expression `4 - len` overflows `u32`, which under Rust's
checked arithmetic aborts — modelled by `POutcome.ovfl`. -/
def decode_hex (s : String) : POutcome Nat :=
  match fromStrRadix16 s with
  | none => .err (.Parse s)
  | some v =>
    if s.length ≤ 4 then .ok (v * 2 ^ ((4 - s.length) * 4) % 65536)
    else .ovfl

/-- The `decode_x11_color` of src/lib.rs: split on `/`, take components 0,
1 and 2 (any further components are never consulted), decode each in
order. -/
def decode_x11_color (s : String) : POutcome (Nat × Nat × Nat) :=
  let rgb := (splitOnChar '/' s.toList).map String.mk
  match rgb[0]? with
  | none => .err (.Parse s)
  | some rs =>
    match rgb[1]? with
    | none => .err (.Parse s)
    | some gs =>
      match rgb[2]? with
      | none => .err (.Parse s)
      | some bs =>
        match decode_hex rs with
        | .err e => .err e
        | .ovfl => .ovfl
        | .ok r =>
          match decode_hex gs with
          | .err e => .err e
          | .ovfl => .ovfl
          | .ok g =>
            match decode_hex bs with
            | .err e => .err e
            | .ovfl => .ovfl
            | .ok b => .ok (r, g, b)

/-- A simulated input stream: each entry is a byte together with the
delay, in abstract ticks, between the issuing of its read and its
arrival. An exhausted stream makes `read_exact` fail with an I/O error
(unexpected end of file), as on a closed stdin. -/
abbrev ByteStream := List (Nat × Nat)

/-- Sum of the arrival delays of a stream: the wall-clock span the whole
stream takes to arrive. -/
def totalDelay (s : ByteStream) : Nat :=
  (s.map Prod.fst).sum

/-- The timed read loop of `from_xterm` (src/lib.rs lines 196–228). Each
iteration evaluates `time::timeout(timeout, stdin.read_exact(&mut buf))`
with the full, freshly restarted `timeout`; the model times a read out
exactly when its byte's delay exceeds `timeout`. Bytes before the first
`:` (58) are discarded; afterwards bytes accumulate until BEL (7) stops
the loop, or ESC (27) stops it after one further byte is read and
discarded (the `debug_assert_eq!` on that byte is compiled out of
release builds and is not modelled). -/
def readColorLoop (timeout : Nat) : ByteStream → Bool → List Nat → Except Error (List Nat)
  | [], _, _ => .error .IoError
  | (d, b) :: rest, start, buffer =>
    if timeout < d then .error .Timeout
    else if start && b == 7 then .ok buffer
    else if start && b == 27 then
      match rest with
      | [] => .error .IoError
      | (d2, _) :: _ => if timeout < d2 then .error .Timeout else .ok buffer
    else
      readColorLoop timeout rest (start || b == 58)
        (if start then buffer ++ [b] else buffer)

/-- The timed read loop of `xterm_latency` (src/lib.rs lines 305–320):
same freshly restarted per-byte `time::timeout`, looping until the
literal byte `n` (110) arrives; returns the accumulated arrival time of
the terminator, standing for `start.elapsed()`. -/
def readLatencyLoop (timeout : Nat) (acc : Nat) : ByteStream → Except Error Nat
  | [] => .error .IoError
  | (d, b) :: rest =>
    if timeout < d then .error .Timeout
    else if b == 110 then .ok (acc + d)
    else readLatencyLoop timeout (acc + d) rest

/-- The environment a probe run interacts with: whether the three
standard streams are attached to a terminal, whether each fallible
side-effecting step succeeds, and the simulated input stream. -/
structure ProbeEnv where
  stdinTty : Bool
  stdoutTty : Bool
  stderrTty : Bool
  enableOk : Bool
  writeOk : Bool
  flushOk : Bool
  rtOk : Bool
  stdinOpenOk : Bool
  disableOk : Bool
  timeout : Nat
  input : ByteStream
deriving DecidableEq

/-- Observable outcome of a probe run: the value or error surfaced to the
caller, whether raw mode was ever enabled during the run, and whether
the terminal is still in raw mode when the run returns. -/
structure RunResult (α : Type) where
  result : POutcome α
  rawModeEntered : Bool
  rawModeAtExit : Bool
deriving DecidableEq

/-- The query string selected by `from_xterm` (src/lib.rs lines 181–187). -/
def xtermQuery (term : Terminal) : String :=
  if term = Terminal.Tmux then "\x1bPtmux;\x1b\x1b]11;?\x07\x1b\\\x03"
  else if term = Terminal.Screen then "\x1bP\x1b]11;?\x07\x1b\\\x03"
  else "\x1b]11;?\x1b\\"

/-- ASCII-exact model of `String::from_utf8_lossy`: bytes below 0x80 map
to themselves, anything else to U+FFFD. (Multi-byte UTF-8 sequences are
not reassembled; every payload the development evaluates is ASCII, and
any non-ASCII character is neither a hex digit nor `/`, so the decoder
rejects it either way.) -/
def fromUtf8Lossy (bs : List Nat) : String :=
  String.mk (bs.map fun b => if b < 128 then Char.ofNat b else '�')

/-- The `from_xterm` probe (src/lib.rs lines 171–238), with its
side-effecting steps resolved against a `ProbeEnv`, faithful to the
source's order: the tty check, `enable_raw_mode()?`,
`write!(stderr, query)?`, `stderr.flush()?`, `Runtime::new()?`, the
`block_on` body (`stdin::stdin()?` then `readColorLoop`),
`disable_raw_mode()?`, only then `buffer?`, and finally the decode. Each
`?` before `disable_raw_mode` returns with raw mode still enabled. -/
def from_xterm (term : Terminal) (e : ProbeEnv) : RunResult Rgb :=
  let _query := xtermQuery term
  if !(e.stdinTty && e.stdoutTty && e.stderrTty) then ⟨.err .Unsupported, false, false⟩
  else if !e.enableOk then ⟨.err .IoError, false, false⟩
  else if !e.writeOk then ⟨.err .IoError, true, true⟩
  else if !e.flushOk then ⟨.err .IoError, true, true⟩
  else if !e.rtOk then ⟨.err .IoError, true, true⟩
  else
    let buffer : Except Error (List Nat) :=
      if !e.stdinOpenOk then .error .IoError
      else readColorLoop e.timeout e.input false []
    if !e.disableOk then ⟨.err .IoError, true, true⟩
    else
      match buffer with
      | .error er => ⟨.err er, true, false⟩
      | .ok buf =>
        match decode_x11_color (fromUtf8Lossy buf) with
        | .err er => ⟨.err er, true, false⟩
        | .ovfl => ⟨.ovfl, true, false⟩
        | .ok (r, g, b) => ⟨.ok ⟨r, g, b⟩, true, false⟩

/-- The `xterm_latency` probe (src/lib.rs lines 292–329): note that the
source performs no `is_terminal` check here; it proceeds directly to
`enable_raw_mode()?`, the write and flush of `"\x1b[5n"`, the timed
loop, `disable_raw_mode()?`, and only then `ret?`. -/
def xterm_latency (e : ProbeEnv) : RunResult Nat :=
  if !e.enableOk then ⟨.err .IoError, false, false⟩
  else if !e.writeOk then ⟨.err .IoError, true, true⟩
  else if !e.flushOk then ⟨.err .IoError, true, true⟩
  else if !e.rtOk then ⟨.err .IoError, true, true⟩
  else
    let ret : Except Error Nat :=
      if !e.stdinOpenOk then .error .IoError
      else readLatencyLoop e.timeout 0 e.input
    if !e.disableOk then ⟨.err .IoError, true, true⟩
    else
      match ret with
      | .error er => ⟨.err er, true, false⟩
      | .ok elapsed => ⟨.ok elapsed, true, false⟩

/-- Digit-by-digit accumulation of `u8::from_str_radix(s, 10)` with the
checked `u8` bound. -/
def parseRadixU8Dec : List Char → Nat → Option Nat
  | [], acc => some acc
  | c :: cs, acc =>
    if c.isDigit then
      let d := c.toNat - '0'.toNat
      if acc * 10 + d ≤ 255 then parseRadixU8Dec cs (acc * 10 + d) else none
    else none

/-- Model of `u8::from_str_radix(s, 10)`: optional leading `+`, then one
or more decimal digits, value at most 255. -/
def fromStrRadix10U8 (s : String) : Option Nat :=
  match s.toList with
  | [] => none
  | c :: cs =>
    if c = '+' then
      match cs with
      | [] => none
      | _ => parseRadixU8Dec cs 0
    else parseRadixU8Dec (c :: cs) 0

/-- The rxvt default color table of `from_env_colorfgbg`
(src/lib.rs lines 247–283), wildcard arm included. -/
def colorTable (bg : Nat) : Nat × Nat × Nat :=
  match bg with
  | 0 => (0, 0, 0)
  | 1 => (205, 0, 0)
  | 2 => (0, 205, 0)
  | 3 => (205, 205, 0)
  | 4 => (0, 0, 238)
  | 5 => (205, 0, 205)
  | 6 => (0, 205, 205)
  | 7 => (229, 229, 229)
  | 8 => (127, 127, 127)
  | 9 => (255, 0, 0)
  | 10 => (0, 255, 0)
  | 11 => (255, 255, 0)
  | 12 => (92, 92, 255)
  | 13 => (255, 0, 255)
  | 14 => (0, 255, 255)
  | 15 => (255, 255, 255)
  | _ => (0, 0, 0)

/-- The `from_env_colorfgbg` fallback (src/lib.rs lines 240–290). The
argument is the value of the `COLORFGBG` environment variable, `none`
when absent (or not unicode, which `env::var` reports the same way). -/
def from_env_colorfgbg (v : Option String) : Except Error Rgb :=
  match v with
  | none => .error .Unsupported
  | some var =>
    match ((splitOnChar ';' var.toList).map String.mk)[1]? with
    | none => .error .Unsupported
    | some bg =>
      match fromStrRadix10U8 bg with
      | none => .error (.Parse var)
      | some bgv =>
        let rgb := colorTable bgv
        .ok ⟨rgb.1 * 256, rgb.2.1 * 256, rgb.2.2 * 256⟩

/-- The POSIX process environment as read by `terminal()`: each field is
the value of the corresponding variable, `none` when unset (or not
unicode). -/
structure Env where
  insideEmacs : Option String
  tmux : Option String
  term : Option String
deriving DecidableEq

/-- The POSIX `terminal()` of src/lib.rs lines 55–75. -/
def terminal (e : Env) : Terminal :=
  if e.insideEmacs.isSome then .Emacs
  else if e.tmux.isSome then .Tmux
  else
    let isScreen :=
      match e.term with
      | some t => startsWithChars "screen".toList t.toList
      | none => false
    if isScreen then .Screen else .XtermCompatible

/-- The luminance computation of `theme()` (src/lib.rs line 162). The
source computes in `f64`; the model takes the decimal weights as exact
rationals. -/
def luminance (c : Rgb) : ℚ :=
  (c.r : ℚ) * (299 / 1000) + (c.g : ℚ) * (587 / 1000) + (c.b : ℚ) * (114 / 1000)

/-- The classification step of `theme()` (src/lib.rs lines 164–168):
strictly above 32768 is Light, anything else Dark. -/
def themeOf (c : Rgb) : Theme :=
  if 32768 < luminance c then .Light else .Dark

/-! ## Helper lemmas -/

/-- Accumulated numeric value of a hex digit string, mirroring the
accumulation order of `parseRadixU16`. -/
def hexVal : List Char → Nat → Nat
  | [], acc => acc
  | c :: cs, acc => hexVal cs (acc * 16 + (hexDigitVal c).getD 0)

lemma hexDigitVal_le_15 {c : Char} {d : Nat} (h : hexDigitVal c = some d) : d ≤ 15 := by
  unfold hexDigitVal at h
  split_ifs at h <;> simp_all <;> omega

lemma le_hexVal (cs : List Char) (acc : Nat) : acc ≤ hexVal cs acc := by
  induction cs generalizing acc with
  | nil => exact Nat.le_refl _
  | cons c cs ih =>
    have h1 : acc ≤ acc * 16 + (hexDigitVal c).getD 0 := by omega
    exact Nat.le_trans h1 (ih _)

lemma hexVal_lt (cs : List Char) (hall : ∀ c ∈ cs, (hexDigitVal c).isSome) (acc : Nat) :
    hexVal cs acc < (acc + 1) * 16 ^ cs.length := by
  induction cs generalizing acc with
  | nil =>
    simp only [hexVal, List.length_nil, pow_zero, mul_one]
    omega
  | cons c cs ih =>
    obtain ⟨d, hd⟩ := Option.isSome_iff_exists.mp (hall c (List.mem_cons_self c cs))
    have hd15 : d ≤ 15 := hexDigitVal_le_15 hd
    have hstep : hexVal (c :: cs) acc = hexVal cs (acc * 16 + d) := by
      simp [hexVal, hd]
    have h2 := ih (fun x hx => hall x (List.mem_cons_of_mem _ hx)) (acc * 16 + d)
    have h4 : acc * 16 + d + 1 ≤ (acc + 1) * 16 := by omega
    calc hexVal (c :: cs) acc
        = hexVal cs (acc * 16 + d) := hstep
      _ < (acc * 16 + d + 1) * 16 ^ cs.length := h2
      _ ≤ ((acc + 1) * 16) * 16 ^ cs.length := Nat.mul_le_mul_right _ h4
      _ = (acc + 1) * 16 ^ (c :: cs).length := by
          rw [List.length_cons, pow_succ]
          ring

lemma parseRadixU16_eq (cs : List Char) (acc : Nat)
    (hall : ∀ c ∈ cs, (hexDigitVal c).isSome)
    (hb : hexVal cs acc ≤ 65535) :
    parseRadixU16 cs acc = some (hexVal cs acc) := by
  induction cs generalizing acc with
  | nil => rfl
  | cons c cs ih =>
    obtain ⟨d, hd⟩ := Option.isSome_iff_exists.mp (hall c (List.mem_cons_self c cs))
    have hstep : hexVal (c :: cs) acc = hexVal cs (acc * 16 + d) := by
      simp [hexVal, hd]
    rw [hstep] at hb ⊢
    have hle : acc * 16 + d ≤ 65535 := Nat.le_trans (le_hexVal cs _) hb
    unfold parseRadixU16
    rw [hd]
    show (if acc * 16 + d ≤ 65535 then parseRadixU16 cs (acc * 16 + d) else none) =
      some (hexVal cs (acc * 16 + d))
    rw [if_pos hle]
    exact ih _ (fun x hx => hall x (List.mem_cons_of_mem _ hx)) hb

lemma hexDigitVal_plus : hexDigitVal '+' = none := by decide

lemma fromStrRadixChars16_eq (c : Char) (cs : List Char) (hc : c ≠ '+')
    (hall : ∀ x ∈ c :: cs, (hexDigitVal x).isSome)
    (hb : hexVal (c :: cs) 0 ≤ 65535) :
    fromStrRadixChars16 (c :: cs) = some (hexVal (c :: cs) 0) := by
  simp only [fromStrRadixChars16]
  rw [if_neg hc]
  exact parseRadixU16_eq _ _ hall hb

lemma fromStrRadix16_eq (s : String) (c : Char) (cs : List Char)
    (hcs : s.toList = c :: cs)
    (hall : ∀ x ∈ s.toList, (hexDigitVal x).isSome)
    (hb : hexVal s.toList 0 ≤ 65535) :
    fromStrRadix16 s = some (hexVal s.toList 0) := by
  have hc : c ≠ '+' := by
    intro h
    have := hall c (hcs ▸ List.mem_cons_self c cs)
    rw [h, hexDigitVal_plus] at this
    simp at this
  rw [hcs] at hall hb
  unfold fromStrRadix16
  rw [hcs]
  exact fromStrRadixChars16_eq c cs hc hall hb

/-! ## Claim theorems -/

/-- C5: for every hex component of 1–4 digits, `decode_hex` parses it as
hexadecimal and left-shifts by `(4 − digit_count) × 4` bits; in
particular `"0000/0000/0000"` decodes to `(0,0,0)` and
`"1111/2222/3333"` to `(0x1111, 0x2222, 0x3333)`. -/
theorem C5_decode_hex_normalization :
    (∀ s : String, 1 ≤ s.toList.length → s.toList.length ≤ 4 →
      (∀ c ∈ s.toList, (hexDigitVal c).isSome) →
      decode_hex s = POutcome.ok (hexVal s.toList 0 * 2 ^ ((4 - s.toList.length) * 4))) ∧
    decode_x11_color "0000/0000/0000" = POutcome.ok (0, 0, 0) ∧
    decode_x11_color "1111/2222/3333" = POutcome.ok (0x1111, 0x2222, 0x3333) := by
  refine ⟨?_, rfl, rfl⟩
  intro s h1 h4 hall
  have hlen : s.length = s.toList.length := rfl
  have hlt : hexVal s.toList 0 < 16 ^ s.toList.length := by
    simpa using hexVal_lt s.toList hall 0
  have hpow : (16 : Nat) ^ s.toList.length ≤ 16 ^ 4 :=
    Nat.pow_le_pow_right (by norm_num) h4
  have hb : hexVal s.toList 0 ≤ 65535 := by
    have h65536 : (16 : Nat) ^ 4 = 65536 := by norm_num
    omega
  obtain ⟨c, cs, hcs⟩ : ∃ c cs, s.toList = c :: cs := by
    cases hx : s.toList with
    | nil => rw [hx] at h1; simp at h1
    | cons a l => exact ⟨a, l, rfl⟩
  unfold decode_hex
  rw [fromStrRadix16_eq s c cs hcs hall hb]
  show (if s.length ≤ 4 then
      POutcome.ok (hexVal s.toList 0 * 2 ^ ((4 - s.length) * 4) % 65536)
    else POutcome.ovfl) = POutcome.ok (hexVal s.toList 0 * 2 ^ ((4 - s.toList.length) * 4))
  rw [hlen, if_pos h4]
  congr 1
  apply Nat.mod_eq_of_lt
  set n := s.toList.length with hn
  set v := hexVal s.toList 0 with hv
  interval_cases n <;> norm_num at hlt ⊢ <;> omega

/-- C5 witness: the 1-digit component `"3"` decodes to `0x3000 = 12288`. -/
theorem C5_witness : decode_hex "3" = POutcome.ok 12288 := by
  have h := C5_decode_hex_normalization.1 "3" (by decide) (by decide) (by decide)
  exact h

/-- C8: theme classification computes luminance with the BT.601 weights
over the 16-bit channels and returns Light exactly when Y > 32768;
(0,0,0) is Dark, (65535,65535,65535) is Light, and luminance exactly
32768 classifies as Dark. Total, no failure mode. -/
theorem C8_theme_classification :
    themeOf ⟨0, 0, 0⟩ = Theme.Dark ∧
    themeOf ⟨65535, 65535, 65535⟩ = Theme.Light ∧
    (∀ c : Rgb, luminance c = 32768 → themeOf c = Theme.Dark) ∧
    (∀ c : Rgb, 32768 < luminance c ↔ themeOf c = Theme.Light) := by
  refine ⟨by norm_num [themeOf, luminance], by norm_num [themeOf, luminance], ?_, ?_⟩
  · intro c h
    unfold themeOf
    rw [h]
    norm_num
  · intro c
    unfold themeOf
    split_ifs with h <;> simp [h]

/-- C8 witness: the sample (32768, 32768, 32768) has luminance exactly
32768 and classifies as Dark. -/
theorem C8_witness : themeOf ⟨32768, 32768, 32768⟩ = Theme.Dark :=
  C8_theme_classification.2.2.1 ⟨32768, 32768, 32768⟩ (by norm_num [luminance])

/-- C9: POSIX terminal-family detection is a pure total function of the
environment with first-match-wins precedence: INSIDE_EMACS, then TMUX,
then TERM starting with "screen", otherwise XtermCompatible. -/
theorem C9_terminal_detection :
    (∀ e : Env, e.insideEmacs.isSome = true → terminal e = Terminal.Emacs) ∧
    (∀ e : Env, e.insideEmacs = none → e.tmux.isSome = true → terminal e = Terminal.Tmux) ∧
    (∀ (e : Env) (t : String), e.insideEmacs = none → e.tmux = none → e.term = some t →
      startsWithChars "screen".toList t.toList = true → terminal e = Terminal.Screen) ∧
    (∀ (e : Env) (t : String), e.insideEmacs = none → e.tmux = none → e.term = some t →
      startsWithChars "screen".toList t.toList = false →
      terminal e = Terminal.XtermCompatible) ∧
    (∀ e : Env, e.insideEmacs = none → e.tmux = none → e.term = none →
      terminal e = Terminal.XtermCompatible) := by
  refine ⟨?_, ?_, ?_, ?_, ?_⟩
  · intro e h
    simp [terminal, h]
  · intro e h1 h2
    simp [terminal, h1, h2]
  · intro e t h1 h2 h3 h4
    simp at h4
    simp [terminal, h1, h2, h3, h4]
  · intro e t h1 h2 h3 h4
    simp at h4
    simp [terminal, h1, h2, h3, h4]
  · intro e h1 h2 h3
    simp [terminal, h1, h2, h3]

/-- C9 witness: with INSIDE_EMACS set, the result is Emacs even when
TMUX and a screen-prefixed TERM are also set. -/
theorem C9_witness :
    terminal ⟨some "t", some "x", some "screen.xterm"⟩ = Terminal.Emacs :=
  C9_terminal_detection.1 ⟨some "t", some "x", some "screen.xterm"⟩ rfl

/-- Constructor tag of an `Error`, identifying the error kind while
ignoring any carried payload. -/
def errKind : Error → Nat
  | .IoError => 0
  | .Parse _ => 1
  | .Unsupported => 2
  | .Timeout => 3

/-- Outcome equivalence for the fallback: equal success samples, or
errors of the same kind. -/
def sameOutcome : Except Error Rgb → Except Error Rgb → Prop
  | .ok a, .ok b => a = b
  | .error e1, .error e2 => errKind e1 = errKind e2
  | _, _ => False

/-- C10: the outcome of `from_env_colorfgbg` depends only on the second
`;`-separated field of the variable — equal second fields give equal
outcomes (same sample or same error kind) — and the foreground field is
never validated: "garbage;15" succeeds. -/
theorem C10_second_field_only :
    (∀ v₁ v₂ : String,
      ((splitOnChar ';' v₁.toList).map String.mk)[1]? =
        ((splitOnChar ';' v₂.toList).map String.mk)[1]? →
      sameOutcome (from_env_colorfgbg (some v₁)) (from_env_colorfgbg (some v₂))) ∧
    from_env_colorfgbg (some "garbage;15") = Except.ok ⟨65280, 65280, 65280⟩ := by
  refine ⟨?_, rfl⟩
  intro v₁ v₂ h
  simp only [from_env_colorfgbg]
  rw [h]
  cases hx : ((splitOnChar ';' v₂.toList).map String.mk)[1]? with
  | none => simp [sameOutcome]
  | some bg =>
    cases hp : fromStrRadix10U8 bg with
    | none => simp [hp, sameOutcome, errKind]
    | some n => simp [hp, sameOutcome]

/-- C10 witness: "fg;15" and "0;15;extra" have the same second field and
the same outcome; fields before and after the second are ignored. -/
theorem C10_witness :
    sameOutcome (from_env_colorfgbg (some "fg;15"))
      (from_env_colorfgbg (some "0;15;extra")) :=
  C10_second_field_only.1 "fg;15" "0;15;extra" rfl

/-- C3 counterexample: the out-of-range index 99 does not fail — the
wildcard arm of the color table silently substitutes black, which the
fallback returns as a success. -/
theorem C3_counterexample :
    from_env_colorfgbg (some "0;99") = Except.ok ⟨0, 0, 0⟩ := rfl

/-- C3 (amended): a second field parsing as a decimal u8 in 16–255 makes
`from_env_colorfgbg` return Ok black (0,0,0) through the wildcard table
arm — a silently substituted default, not a failure; a second field that
fails the u8 parse (non-numeric, or above 255) yields a Parse error; and
"0;15" yields the sample (65280, 65280, 65280). -/
theorem C3_amended :
    (∀ (v s : String) (n : Nat), 16 ≤ n →
      ((splitOnChar ';' v.toList).map String.mk)[1]? = some s →
      fromStrRadix10U8 s = some n →
      from_env_colorfgbg (some v) = Except.ok ⟨0, 0, 0⟩) ∧
    (∀ v s : String,
      ((splitOnChar ';' v.toList).map String.mk)[1]? = some s →
      fromStrRadix10U8 s = none →
      from_env_colorfgbg (some v) = Except.error (Error.Parse v)) ∧
    from_env_colorfgbg (some "0;15") = Except.ok ⟨65280, 65280, 65280⟩ := by
  refine ⟨?_, ?_, rfl⟩
  · intro v s n h16 hv hs
    obtain ⟨k, rfl⟩ : ∃ k, n = k + 16 := ⟨n - 16, by omega⟩
    have hct : colorTable (k + 16) = (0, 0, 0) := rfl
    simp only [from_env_colorfgbg]
    rw [hv]
    simp [hs, hct]
  · intro v s hv hs
    simp only [from_env_colorfgbg]
    rw [hv]
    simp [hs]

/-- C3 witness: index 200 (also out of range) silently yields black. -/
theorem C3_witness :
    from_env_colorfgbg (some "garbage;200") = Except.ok ⟨0, 0, 0⟩ :=
  C3_amended.1 "garbage;200" "200" 200 (by norm_num) rfl rfl

/-- A component decodes cleanly iff it parses as a u16 hex numeral and
has at most 4 characters. -/
def hexOk (u : String) : Bool :=
  (fromStrRadix16 u).isSome && decide (u.length ≤ 4)

/-- Success condition of `decode_x11_color`: the split yields at least
three components and the first three each decode cleanly. -/
def firstThreeHexOk (s : String) : Bool :=
  match (splitOnChar '/' s.toList).map String.mk with
  | rs :: gs :: bs :: _ => hexOk rs && hexOk gs && hexOk bs
  | _ => false

lemma decode_hex_ok_iff (u : String) :
    (∃ v, decode_hex u = POutcome.ok v) ↔ hexOk u = true := by
  unfold decode_hex hexOk
  cases h : fromStrRadix16 u with
  | none => simp
  | some v =>
    simp only [Option.isSome_some, Bool.true_and]
    split_ifs with h4 <;> simp [h4]

/-- C4 counterexample: a payload of four components is accepted, the
fourth silently ignored — the claim requires exactly three. -/
theorem C4_counterexample :
    decode_x11_color "1/2/3/4" = POutcome.ok (4096, 8192, 12288) := rfl

/-- C4 (amended): `decode_x11_color` succeeds exactly when the first
three `/`-components each parse as a u16 hex numeral of at most 4
characters; additional components are ignored rather than rejected, and
a component of more than 4 characters whose value still fits in u16
(zero-padded) aborts on checked-arithmetic overflow in the shift instead
of returning a clean parse error, as "00000/0/0" shows. -/
theorem C4_amended :
    (∀ s : String,
      (∃ t, decode_x11_color s = POutcome.ok t) ↔ firstThreeHexOk s = true) ∧
    decode_x11_color "00000/0/0" = POutcome.ovfl := by
  refine ⟨?_, rfl⟩
  intro s
  unfold decode_x11_color firstThreeHexOk
  cases hsplit : (splitOnChar '/' s.toList).map String.mk with
  | nil => simp
  | cons rs l1 =>
    cases l1 with
    | nil => simp
    | cons gs l2 =>
      cases l2 with
      | nil => simp
      | cons bs rest =>
        simp only [List.getElem?_cons_zero, List.getElem?_cons_succ]
        rcases h1 : decode_hex rs with v1 | e1 | _
        · rcases h2 : decode_hex gs with v2 | e2 | _
          · rcases h3 : decode_hex bs with v3 | e3 | _
            · simp [← decode_hex_ok_iff, h1, h2, h3]
            · simp [← decode_hex_ok_iff, h1, h2, h3]
            · simp [← decode_hex_ok_iff, h1, h2, h3]
          · simp [← decode_hex_ok_iff, h1, h2]
          · simp [← decode_hex_ok_iff, h1, h2]
        · simp [← decode_hex_ok_iff, h1]
        · simp [← decode_hex_ok_iff, h1]

/-- C4 witness: a well-formed three-component payload decodes. -/
theorem C4_witness : ∃ t, decode_x11_color "11/22/33" = POutcome.ok t :=
  (C4_amended.1 "11/22/33").mpr rfl

/-- C1 counterexample: with timeout 10 and a response whose three bytes
each arrive 9 ticks after the previous read begins (total 27 > 10), the
`from_xterm` read loop returns the decoded payload instead of Timeout:
the overall deadline from probe start is not enforced. -/
theorem C1_counterexample :
    readColorLoop 10 [(9, 58), (9, 65), (9, 7)] false [] = Except.ok [65] ∧
    totalDelay [(9, 58), (9, 65), (9, 7)] = 27 ∧
    ([(9, 58), (9, 65), (9, 7)] : ByteStream).all (fun p => p.1 ≤ 10) = true := by
  exact ⟨rfl, rfl, rfl⟩

/-- C1 (amended): each per-byte read races against a fresh, full timeout
of t, not against the remaining budget to an absolute deadline: whenever
every byte of the stream arrives within t of its read being issued,
neither the color loop nor the latency loop ever returns Timeout, no
matter how large the total elapsed time grows. -/
theorem C1_amended (t : Nat) (s : ByteStream) (h : ∀ p ∈ s, p.1 ≤ t) :
    (∀ st buf, readColorLoop t s st buf ≠ Except.error Error.Timeout) ∧
    (∀ acc, readLatencyLoop t acc s ≠ Except.error Error.Timeout) := by
  induction s with
  | nil =>
    constructor
    · intro st buf
      simp [readColorLoop]
    · intro acc
      simp [readLatencyLoop]
  | cons p rest ih =>
    obtain ⟨d, b⟩ := p
    have hd : d ≤ t := h (d, b) (List.mem_cons_self _ _)
    have hrest : ∀ q ∈ rest, q.1 ≤ t := fun q hq => h q (List.mem_cons_of_mem _ hq)
    obtain ⟨ihc, ihl⟩ := ih hrest
    constructor
    · intro st buf
      unfold readColorLoop
      rw [if_neg (by omega)]
      by_cases h7 : (st && b == 7) = true
      · rw [if_pos h7]
        simp
      · rw [if_neg h7]
        by_cases h27 : (st && b == 27) = true
        · rw [if_pos h27]
          cases rest with
          | nil => simp
          | cons q rest2 =>
            obtain ⟨d2, b2⟩ := q
            have hd2 : d2 ≤ t := hrest (d2, b2) (List.mem_cons_self _ _)
            show (if t < d2 then Except.error Error.Timeout else Except.ok buf) ≠
              Except.error Error.Timeout
            rw [if_neg (by omega)]
            simp
        · rw [if_neg h27]
          exact ihc _ _
    · intro acc
      unfold readLatencyLoop
      rw [if_neg (by omega)]
      by_cases hn : (b == 110) = true
      · rw [if_pos hn]
        simp
      · rw [if_neg hn]
        exact ihl _

/-- C1 witness: a slow three-byte stream, every gap within the timeout,
never yields Timeout. -/
theorem C1_witness :
    readColorLoop 12 [(9, 58), (9, 65), (9, 7)] false [] ≠
      Except.error Error.Timeout :=
  (C1_amended 12 [(9, 58), (9, 65), (9, 7)] (by decide)).1 false []

/-- C2 counterexample: when the write of the query fails after raw mode
was enabled, `from_xterm` surfaces the I/O error while the terminal is
still in raw mode. -/
theorem C2_counterexample :
    (from_xterm Terminal.XtermCompatible
        ⟨true, true, true, true, false, true, true, true, true, 10, []⟩).result =
      POutcome.err Error.IoError ∧
    (from_xterm Terminal.XtermCompatible
        ⟨true, true, true, true, false, true, true, true, true, 10, []⟩).rawModeAtExit =
      true := by
  exact ⟨rfl, rfl⟩

/-- C2 (amended): raw mode is restored before the result is surfaced on
the exit paths downstream of the timed read — success, timeout,
malformed response, read I/O error — provided the write, flush,
runtime-creation and restoration steps themselves succeed; a failure of
write, flush or runtime creation after raw mode was enabled (or of the
restoration itself) returns an error with the terminal still in raw
mode. -/
theorem C2_amended (term : Terminal) (e : ProbeEnv)
    (hw : e.writeOk = true) (hf : e.flushOk = true) (hr : e.rtOk = true)
    (hd : e.disableOk = true) :
    (from_xterm term e).rawModeAtExit = false ∧
    (xterm_latency e).rawModeAtExit = false := by
  constructor
  · unfold from_xterm
    rw [hw, hf, hr, hd]
    simp only [Bool.not_true, Bool.false_eq_true, if_false]
    split
    · rfl
    · split
      · rfl
      · split
        · rfl
        · split <;> rfl
  · unfold xterm_latency
    rw [hw, hf, hr, hd]
    simp only [Bool.not_true, Bool.false_eq_true, if_false]
    split
    · rfl
    · split <;> rfl

/-- C2 witness: a probe whose read times out exits with raw mode
restored when the surrounding steps succeed. -/
theorem C2_witness :
    (from_xterm Terminal.XtermCompatible
        ⟨true, true, true, true, true, true, true, true, true, 10, [(11, 0)]⟩).rawModeAtExit =
      false :=
  (C2_amended Terminal.XtermCompatible
    ⟨true, true, true, true, true, true, true, true, true, 10, [(11, 0)]⟩
    rfl rfl rfl rfl).1

/-- C6 counterexample: with none of stdin, stdout, stderr attached to a
terminal, `xterm_latency` still runs the probe — it enables raw mode and
returns a measurement instead of Unsupported. -/
theorem C6_counterexample :
    (xterm_latency
        ⟨false, false, false, true, true, true, true, true, true, 10, [(0, 110)]⟩).result =
      POutcome.ok 0 ∧
    (xterm_latency
        ⟨false, false, false, true, true, true, true, true, true, 10, [(0, 110)]⟩).rawModeEntered =
      true := by
  exact ⟨rfl, rfl⟩

/-- C6 (amended): only `from_xterm` performs the interactive-device
check — when any of the three standard streams is not a terminal it
returns Unsupported without entering raw mode — while `xterm_latency`
is entirely independent of the tty status of the three streams. -/
theorem C6_amended :
    (∀ (term : Terminal) (e : ProbeEnv),
      (e.stdinTty && e.stdoutTty && e.stderrTty) = false →
      (from_xterm term e).result = POutcome.err Error.Unsupported ∧
      (from_xterm term e).rawModeEntered = false) ∧
    (∀ (e : ProbeEnv) (b₁ b₂ b₃ : Bool),
      xterm_latency
          ⟨b₁, b₂, b₃, e.enableOk, e.writeOk, e.flushOk, e.rtOk, e.stdinOpenOk,
            e.disableOk, e.timeout, e.input⟩ =
        xterm_latency e) := by
  constructor
  · intro term e h
    unfold from_xterm
    rw [h]
    exact ⟨rfl, rfl⟩
  · intro e b₁ b₂ b₃
    rfl

/-- C6 witness: `from_xterm` with a non-tty stdin is Unsupported and
leaves the terminal mode untouched. -/
theorem C6_witness :
    (from_xterm Terminal.XtermCompatible
        ⟨false, true, true, true, true, true, true, true, true, 10, []⟩).result =
      POutcome.err Error.Unsupported :=
  (C6_amended.1 Terminal.XtermCompatible
    ⟨false, true, true, true, true, true, true, true, true, 10, []⟩ rfl).1

/-- C7 counterexample: the read fails with Timeout and the raw-mode
restoration also fails; the probe surfaces the restoration's I/O error,
not the original Timeout — `disable_raw_mode()?` runs before `buffer?`
and masks it. -/
theorem C7_counterexample :
    readColorLoop 10 [(11, 0)] false [] = Except.error Error.Timeout ∧
    (from_xterm Terminal.XtermCompatible
        ⟨true, true, true, true, true, true, true, true, false, 10, [(11, 0)]⟩).result =
      POutcome.err Error.IoError ∧
    (from_xterm Terminal.XtermCompatible
        ⟨true, true, true, true, true, true, true, true, false, 10, [(11, 0)]⟩).result ≠
      POutcome.err Error.Timeout := by
  refine ⟨rfl, rfl, by decide⟩

/-- C7 (amended): restoration is attempted unconditionally after the
read, and when it succeeds the prior read failure is surfaced with raw
mode restored; but a restoration failure takes precedence over — and so
masks — any prior read error, rather than being suppressed in its
favor. -/
theorem C7_amended (term : Terminal) (e : ProbeEnv)
    (ht : (e.stdinTty && e.stdoutTty && e.stderrTty) = true)
    (he : e.enableOk = true) (hw : e.writeOk = true) (hf : e.flushOk = true)
    (hr : e.rtOk = true) (hs : e.stdinOpenOk = true) :
    (e.disableOk = false →
      (from_xterm term e).result = POutcome.err Error.IoError ∧
      (xterm_latency e).result = POutcome.err Error.IoError) ∧
    (e.disableOk = true →
      (∀ er, readColorLoop e.timeout e.input false [] = Except.error er →
        (from_xterm term e).result = POutcome.err er ∧
        (from_xterm term e).rawModeAtExit = false) ∧
      (∀ er, readLatencyLoop e.timeout 0 e.input = Except.error er →
        (xterm_latency e).result = POutcome.err er ∧
        (xterm_latency e).rawModeAtExit = false)) := by
  constructor
  · intro hdis
    unfold from_xterm xterm_latency
    rw [ht, he, hw, hf, hr, hdis]
    exact ⟨rfl, rfl⟩
  · intro hdis
    constructor
    · intro er hread
      unfold from_xterm
      rw [ht, he, hw, hf, hr, hs, hdis]
      simp [hread]
    · intro er hread
      unfold xterm_latency
      rw [he, hw, hf, hr, hs, hdis]
      simp [hread]

/-- C7 witness: when restoration succeeds, a timed-out read is surfaced
as Timeout with raw mode restored. -/
theorem C7_witness :
    (from_xterm Terminal.XtermCompatible
        ⟨true, true, true, true, true, true, true, true, true, 10, [(11, 1)]⟩).result =
      POutcome.err Error.Timeout :=
  (((C7_amended Terminal.XtermCompatible
      ⟨true, true, true, true, true, true, true, true, true, 10, [(11, 1)]⟩
      rfl rfl rfl rfl rfl rfl).2 rfl).1 Error.Timeout rfl).1

end Termbg
